import Mathlib

/-!
# Currency converter: conversion arithmetic and rate acquisition

A shallow embedding of `main.go` (conversion) and `api/currency.go` (rate
store and refresher).  Amounts and rates are exact rationals; a Go map is an
association list read with first-match lookup, its keys listed in the order of
the list (Go leaves the iteration order open); a Go `(value, error)` result is
an `Except String`.
-/

namespace CurrencyConverter

/-! ## Data model -/

/-- Go type `map[string]float64`: the pairs of the map in some iteration order.
Functions assume, but do not require, that the keys are distinct. -/
abbrev RateMap := List (String × ℚ)

/-- Struct `ExchangeRates` of `api/currency.go`. -/
structure ExchangeRates where
  Timestamp : Int
  Base : String
  Rates : RateMap
deriving DecidableEq, Repr

/-- Two-result map read `rate, exists := m[k]`: `none` when `k` is no key. -/
def RateMap.get (m : RateMap) (k : String) : Option ℚ :=
  m.lookup k

/-- Keys of the map, in iteration order (`for k := range m`). -/
def RateMap.keys (m : RateMap) : List String :=
  m.map Prod.fst

/-- Well-formedness of the map model: a Go map holds each key once. -/
def RateMap.WF (m : RateMap) : Prop :=
  m.keys.Nodup

/-! ## Conversion engine (`main.go`) -/

/-- Function `convertCurrency` of `main.go`, on a non-nil snapshot. -/
def convertCurrency (amount : ℚ) (src dst : String) (rates : ExchangeRates) :
    Except String ℚ :=
  if src = dst then
    .ok amount
  else if src = "USD" then
    match rates.Rates.get dst with
    | some rate => .ok (amount * rate)
    | none => .error ("target currency " ++ dst ++ " not found")
  else if dst = "USD" then
    match rates.Rates.get src with
    | some rate => .ok (amount / rate)
    | none => .error ("source currency " ++ src ++ " not found")
  else
    match rates.Rates.get src, rates.Rates.get dst with
    | some fromRate, some toRate =>
      let amountInUSD := amount / fromRate
      .ok (amountInUSD * toRate)
    | _, _ => .error "currency rates not found"

/-- Reference conversion, written from the specification's four cases: the
pivot is the snapshot's `base`; a missing rate makes the conversion fail. -/
def convertSpec (amount : ℚ) (src dst : String) (s : ExchangeRates) : Option ℚ :=
  if src = dst then
    some amount
  else if src = s.Base then
    match s.Rates.get dst with
    | some r => some (amount * r)
    | none => none
  else if dst = s.Base then
    match s.Rates.get src with
    | some r => some (amount / r)
    | none => none
  else
    match s.Rates.get src, s.Rates.get dst with
    | some rf, some rt => some (amount / rf * rt)
    | _, _ => none

/-! ## Rate store and refresher (`api/currency.go`)

The outside world of one run is explicit state: the credential that
`os.Getenv("CURRENCY_API")` yields after `loadEnv`, the clock, the file
`data.json`, whether it can be created, and what the remote service does.
JSON text is classified by what the decoder makes of it, and every attempted
file or network operation is appended to a trace.  Console output is not
modelled. -/

/-- Go `int64` arithmetic wraps: the representative of `x` modulo `2^64`
in the range `[-2^63, 2^63)`. -/
def wrapInt64 (x : Int) : Int :=
  (x + 2 ^ 63) % 2 ^ 64 - 2 ^ 63

/-- Subtraction `a - b` on `int64` operands. -/
def int64Sub (a b : Int) : Int :=
  wrapInt64 (a - b)

/-- Package variable `defaultRates`; `start` is `time.Now().Unix()` at
program initialisation. -/
def defaultRates (start : Int) : ExchangeRates :=
  { Timestamp := start
    Base := "USD"
    Rates := [("EUR", 0.92), ("GBP", 0.79), ("JPY", 151.37), ("AUD", 1.53),
      ("CAD", 1.36), ("CHF", 0.90), ("CNY", 7.24), ("INR", 83.31),
      ("NZD", 1.65), ("BRL", 5.04)] }

/-- A JSON text, classified by the result of decoding it into an
`ExchangeRates` value (`json.Decoder.Decode` for the file, `json.Unmarshal`
for a response body). -/
inductive Body where
  | malformed
  | document (s : ExchangeRates)
deriving DecidableEq, Repr

/-- Decoding a JSON text into an `ExchangeRates` value. -/
def jsonDecode : Body → Except String ExchangeRates
  | .malformed => .error "invalid character"
  | .document s => .ok s

/-- State of the file `data.json`. -/
inductive FileState where
  /-- Opening reports that the file does not exist. -/
  | missing
  /-- Opening fails with another error. -/
  | unreadable
  /-- The file opens and holds this text. -/
  | content (b : Body)
deriving DecidableEq, Repr

/-- Behaviour of the remote rate service for one `http.Get`. -/
inductive Remote where
  /-- The request or the reading of the body fails. -/
  | unreachable
  /-- The request succeeds with this body. -/
  | responds (b : Body)
deriving DecidableEq, Repr

/-- An attempted operation on storage or on the network. -/
inductive Event where
  | openFile
  | createFile
  | httpGet
deriving DecidableEq, Repr

/-- The world of one run. -/
structure World where
  apiKey : String
  startTime : Int
  now : Int
  file : FileState
  writable : Bool
  remote : Remote
  trace : List Event
deriving DecidableEq, Repr

/-- Function `writeDataStruct`: create `data.json` and encode `data` into it.
A failing write is a failing `os.Create`, which leaves the file as it was;
after a successful write the file decodes to `data`. -/
def writeDataStruct (data : ExchangeRates) (w : World) : Except String Unit × World :=
  let w1 := { w with trace := w.trace ++ [Event.createFile] }
  if w.writable then
    (.ok (), { w1 with file := .content (.document data) })
  else
    (.error "open data.json: permission denied", w1)

/-- Function `ReadData`. -/
def ReadData (w : World) : Except String ExchangeRates × World :=
  let w1 := { w with trace := w.trace ++ [Event.openFile] }
  match w.file with
  | .missing =>
    match writeDataStruct (defaultRates w.startTime) w1 with
    | (.error e, w2) => (.error ("error creating data.json: " ++ e), w2)
    | (.ok _, w2) => (.ok (defaultRates w.startTime), w2)
  | .unreadable => (.error "open data.json: permission denied", w1)
  | .content b =>
    match jsonDecode b with
    | .error e => (.error e, w1)
    | .ok data => (.ok data, w1)

/-- Function `fetchData`: the body of the response, undecoded. -/
def fetchData (_apiKey : String) (w : World) : Except String Body × World :=
  let w1 := { w with trace := w.trace ++ [Event.httpGet] }
  match w.remote with
  | .unreachable => (.error "dial tcp: no route to host", w1)
  | .responds b => (.ok b, w1)

/-- Function `UpdateRates`. -/
def UpdateRates (w : World) : Except String ExchangeRates × World :=
  if w.apiKey = "" then
    (.ok (defaultRates w.startTime), w)
  else
    match ReadData w with
    | (.error e, w1) => (.error ("error reading data: " ++ e), w1)
    | (.ok data, w1) =>
      let currentTime := w1.now
      if int64Sub currentTime data.Timestamp < 10 * 60 * 60 then
        (.ok data, w1)
      else
        match fetchData w1.apiKey w1 with
        | (.error _, w2) => (.ok data, w2)
        | (.ok newData, w2) =>
          match jsonDecode newData with
          | .error e => (.error ("error parsing API response: " ++ e), w2)
          | .ok rates =>
            match writeDataStruct rates w2 with
            | (.error e, w3) => (.error ("error writing data to file: " ++ e), w3)
            | (.ok _, w3) => (.ok rates, w3)

/-- Function `getDefaultCurrencies`. -/
def getDefaultCurrencies (start : Int) : List String :=
  (defaultRates start).Base :: (defaultRates start).Rates.keys

/-- Function `GetAvailableCurrencies`. -/
def GetAvailableCurrencies (w : World) : List String × World :=
  match ReadData w with
  | (.error _, w1) => (getDefaultCurrencies w.startTime, w1)
  | (.ok data, w1) => (data.Base :: data.Rates.keys, w1)

/-! ## Formatting and validation (`main.go`)

A finite `float64` is a rational, so the amount to format is an exact
rational; text is a list of characters (all of them ASCII here). -/

/-- Map `noDecimalCurrencies` of `formatAmount`: the codes mapped to `true`. -/
def noDecimalCurrencies : List String :=
  ["JPY", "KRW", "VND", "IDR", "CLP", "ISK", "HUF"]

/-- Map `threeDecimalCurrencies` of `formatAmount`: the codes mapped to `true`. -/
def threeDecimalCurrencies : List String :=
  ["BHD", "IQD", "KWD", "OMR"]

/-- Decimal text of `num / den` with `decimals` digits after the point,
rounded to nearest with ties to the even digit, with a leading minus sign when
`negative`; no point is written when `decimals` is 0. -/
def fixedPoint (negative : Bool) (num den decimals : Nat) : List Char :=
  let n := num * 10 ^ decimals
  let lower := n / den
  let rest := n % den
  let m := if den < 2 * rest ∨ (2 * rest = den ∧ lower % 2 = 1) then lower + 1 else lower
  let intDigits := Nat.toDigits 10 (m / 10 ^ decimals)
  let fracDigits := Nat.toDigits 10 (m % 10 ^ decimals)
  let sign := if negative then ['-'] else []
  if decimals = 0 then sign ++ intDigits
  else sign ++ intDigits ++ ['.'] ++ List.replicate (decimals - fracDigits.length) '0' ++ fracDigits

/-- Library call `fmt.Sprintf("%.<decimals>f", amount)` on a finite value: the
exact value written with `decimals` digits after the point, correctly rounded
(`strconv` rounds an exact tie to the even digit). -/
def sprintfFixed (decimals : Nat) (amount : ℚ) : List Char :=
  fixedPoint (decide (amount.num < 0)) amount.num.natAbs amount.den decimals

/-- Library call `strings.Split(text, sep)` for a separator of one character. -/
def stringsSplit (sep : Char) : List Char → List (List Char)
  | [] => [[]]
  | c :: cs =>
    if c = sep then [] :: stringsSplit sep cs
    else
      match stringsSplit sep cs with
      | [] => [[c]]
      | p :: ps => (c :: p) :: ps

/-- Separator loop of `formatAmount`: the characters of `intPart` still to be
placed, last one first; `k` is `len(intPart)-i-1`, the number already placed. -/
def separatorLoop : List Char → Nat → List Char → List Char
  | [], _, formatted => formatted
  | c :: rest, k, formatted =>
    let formatted := if formatted.length > 0 ∧ k % 3 = 0 then ',' :: formatted else formatted
    separatorLoop rest (k + 1) (c :: formatted)

/-- Function `formatAmount` of `main.go`. -/
def formatAmount (amount : ℚ) (currencyCode : String) : String :=
  let decimals : Nat :=
    if currencyCode ∈ noDecimalCurrencies then 0
    else if currencyCode ∈ threeDecimalCurrencies then 3
    else 2
  let value := sprintfFixed decimals amount
  let parts := stringsSplit '.' value
  let intPart := parts.headD []
  let formatted := separatorLoop intPart.reverse 0 []
  match parts with
  | _ :: frac :: _ => String.mk (formatted ++ ['.'] ++ frac)
  | _ => String.mk formatted

/-- Reference grouping, written from the specification's words (a comma every
three digits from the right): a comma follows each character that has a
positive multiple of three characters after it. -/
def groupThousands : List Char → List Char
  | [] => []
  | c :: rest =>
    if rest.length > 0 ∧ rest.length % 3 = 0 then c :: ',' :: groupThousands rest
    else c :: groupThousands rest

/-- A `float64` value: not a number, an infinity, or a finite value (the two
zeros are not told apart). -/
inductive F64 where
  | nan
  | negInf
  | posInf
  | finite (q : ℚ)
deriving DecidableEq, Repr

/-- Comparison `a <= b` on `float64`: false as soon as one side is not a
number. -/
def F64.le : F64 → F64 → Bool
  | .nan, _ => false
  | _, .nan => false
  | .negInf, _ => true
  | _, .posInf => true
  | .posInf, _ => false
  | _, .negInf => false
  | .finite a, .finite b => decide (a ≤ b)

/-- Function `validateAmount` of `main.go`; `parseFloat s` is
`strconv.ParseFloat(s, 64)`. -/
def validateAmount (parseFloat : String → Except String F64) (amount : String) :
    Except String Unit :=
  match parseFloat amount with
  | .error _ => .error "please enter a valid number"
  | .ok val =>
    if F64.le val (.finite 0) then .error "amount must be greater than 0"
    else .ok ()

/-! ## Top-level flow (`main.go`) -/

/-- Function `convertCurrency` called with a pointer that may be nil: it
returns the amount when the codes are equal, and otherwise reads
`rates.Rates`, which panics on a nil pointer (`none`). -/
def convertCurrencyPtr (amount : ℚ) (src dst : String) (rates : Option ExchangeRates) :
    Option (Except String ℚ) :=
  if src = dst then
    some (.ok amount)
  else
    match rates with
    | none => none
    | some r => some (convertCurrency amount src dst r)

/-- What the user submits through the form; the amount is the finite number
that the validated text parses to. -/
structure FormInput where
  selectedCurrency : String
  amount : ℚ
  targetCurrency : String
deriving DecidableEq, Repr

/-- How a run of `main` ends. -/
inductive Exit where
  /-- Exit through `log.Fatal`. -/
  | fatal
  /-- Run-time panic: nil pointer dereference. -/
  | nilDereference
  /-- Return from `main`. -/
  | finished
deriving DecidableEq, Repr

/-- Function `main`: the lines written (log and standard output, in order),
how the run ends, and the world left behind.  The form is the function `user`
from the offered codes to what is submitted, or to an error of the form. -/
def main (user : List String → Except String FormInput) (w : World) :
    (List String × Exit) × World :=
  match UpdateRates w with
  | (res, w1) =>
    let rates : Option ExchangeRates := res.toOption
    let log : List String :=
      match res with
      | .error e => ["Warning: Error updating rates: " ++ e]
      | .ok _ => []
    match GetAvailableCurrencies w1 with
    | (currencies, w2) =>
      match user currencies with
      | .error e => ((log ++ [e], .fatal), w2)
      | .ok form =>
        let selectedCurrency := form.selectedCurrency
        let targetCurrency := form.targetCurrency
        let amountFloat := form.amount
        match convertCurrencyPtr amountFloat selectedCurrency targetCurrency rates with
        | none => ((log, .nilDereference), w2)
        | some (.error e) => ((log ++ ["Error converting currency:" ++ e], .fatal), w2)
        | some (.ok convertedAmount) =>
          let rate := convertedAmount / amountFloat
          let out := log ++
            ["", "Conversion Result:",
              selectedCurrency ++ " " ++ formatAmount amountFloat selectedCurrency ++ " = " ++
                targetCurrency ++ " " ++ formatAmount convertedAmount targetCurrency,
              "Exchange Rate: 1 " ++ selectedCurrency ++ " = " ++
                formatAmount rate targetCurrency ++ " " ++ targetCurrency]
          if selectedCurrency ≠ "USD" ∧ targetCurrency ≠ "USD" then
            match convertCurrencyPtr amountFloat selectedCurrency "USD" rates with
            | none => ((out, .nilDereference), w2)
            | some (.error _) => ((out ++ ["USD Equivalent: $" ++ formatAmount 0 "USD"], .finished), w2)
            | some (.ok usdAmount) =>
              ((out ++ ["USD Equivalent: $" ++ formatAmount usdAmount "USD"], .finished), w2)
          else
            ((out, .finished), w2)

/-! ## Concrete inputs -/

/-- A snapshot whose base is EUR, with USD and GBP quoted against it. -/
def eurSnapshot : ExchangeRates :=
  { Timestamp := 0, Base := "EUR", Rates := [("USD", 1.1), ("GBP", 0.85)] }

/-- A stored snapshot carrying the least `int64` timestamp. -/
def ancientSnapshot : ExchangeRates :=
  { Timestamp := -9223372036854775808, Base := "USD", Rates := [("EUR", 0.92)] }

/-- A snapshot as the remote service would send it at time 1730000000. -/
def freshSnapshot : ExchangeRates :=
  { Timestamp := 1730000000, Base := "USD", Rates := [("EUR", 0.95)] }

/-- A run with a credential, `data.json` holding `ancientSnapshot`, and a
remote service that answers with fresh rates. -/
def ancientWorld : World :=
  { apiKey := "k"
    startTime := 1730000000
    now := 1730000000
    file := .content (.document ancientSnapshot)
    writable := true
    remote := .responds (.document freshSnapshot)
    trace := [] }

/-- A run with a credential, a stored snapshot eleven hours old, and no
network. -/
def offlineWorld : World :=
  { apiKey := "k"
    startTime := 1730000000
    now := 1730000000
    file := .content (.document (defaultRates (1730000000 - 11 * 3600)))
    writable := true
    remote := .unreachable
    trace := [] }

/-- A run without credential. -/
def noKeyWorld : World :=
  { apiKey := ""
    startTime := 1730000000
    now := 1730000000
    file := .content .malformed
    writable := false
    remote := .unreachable
    trace := [] }

/-- A snapshot in which the base is itself one of the rate keys, as in the
documents of the remote service, which quote USD against USD at 1. -/
def usdKeySnapshot : ExchangeRates :=
  { Timestamp := 1730000000, Base := "USD", Rates := [("USD", 1), ("EUR", 0.92)] }

/-- A run in which `data.json` holds `usdKeySnapshot`. -/
def usdKeyWorld : World :=
  { apiKey := "k"
    startTime := 1730000000
    now := 1730000000
    file := .content (.document usdKeySnapshot)
    writable := true
    remote := .unreachable
    trace := [] }

/-- A first run: no `data.json` yet. -/
def firstRunWorld : World :=
  { apiKey := ""
    startTime := 1730000000
    now := 1730000000
    file := .missing
    writable := true
    remote := .unreachable
    trace := [] }

/-- Values of `strconv.ParseFloat(s, 64)` on a few texts, as the Go library
documents them ("NaN" is recognised as not-a-number, without error); every
other text is treated as a syntax error here. -/
def sampleParseFloat (s : String) : Except String F64 :=
  if s = "NaN" then .ok .nan
  else if s = "10.5" then .ok (.finite 10.5)
  else if s = "0" then .ok (.finite 0)
  else if s = "-5" then .ok (.finite (-5))
  else .error "invalid syntax"

/-- A snapshot that stores a negative rate for EUR and a zero rate for GBP. -/
def badRateSnapshot : ExchangeRates :=
  { Timestamp := 1730000000, Base := "USD", Rates := [("EUR", -0.5), ("GBP", 0)] }

/-- A run with a credential in which `data.json` does not decode. -/
def corruptWorld : World :=
  { apiKey := "k"
    startTime := 1730000000
    now := 1730000000
    file := .content .malformed
    writable := true
    remote := .unreachable
    trace := [] }

/-- A user who asks for 10 EUR in USD, whatever codes are offered. -/
def eurToUsdUser (_offered : List String) : Except String FormInput :=
  .ok { selectedCurrency := "EUR", amount := 10, targetCurrency := "USD" }

/-- A stored snapshot that quotes SEK, which the defaults do not. -/
def sekSnapshot : ExchangeRates :=
  { Timestamp := 1730000000, Base := "USD", Rates := [("EUR", 0.92), ("SEK", 10.5)] }

/-- A run without credential in which `data.json` holds `sekSnapshot`. -/
def noKeyStoredWorld : World :=
  { apiKey := ""
    startTime := 1730000000
    now := 1730000000
    file := .content (.document sekSnapshot)
    writable := true
    remote := .unreachable
    trace := [] }

/-- A run with a credential in which `data.json` holds the fresh snapshot
`eurSnapshot`, whose base is EUR. -/
def eurWorld : World :=
  { apiKey := "k"
    startTime := 100
    now := 100
    file := .content (.document eurSnapshot)
    writable := true
    remote := .unreachable
    trace := [] }

/-- The zero value of `ExchangeRates`: what `json.Unmarshal` leaves, without
error, when the document is an object that has none of the members
`timestamp`, `base` and `rates`, such as the empty object or the error
document the service sends for a bad credential. -/
def zeroSnapshot : ExchangeRates :=
  { Timestamp := 0, Base := "", Rates := [] }

/-- A run with a credential the service refuses: `data.json` holds a copy of
the default rates eleven hours old, and the response is a well-formed document
without rate data. -/
def refusedKeyWorld : World :=
  { apiKey := "bad"
    startTime := 1730000000
    now := 1730000000
    file := .content (.document (defaultRates (1730000000 - 11 * 3600)))
    writable := true
    remote := .responds (.document zeroSnapshot)
    trace := [] }

/-! ## Theorems: conversion -/

/-- A key of the map has a stored rate. -/
theorem RateMap.get_of_mem_keys (m : RateMap) (k : String) (h : k ∈ m.keys) :
    ∃ r, m.get k = some r := by
  induction m with
  | nil => simp [RateMap.keys] at h
  | cons p tl ih =>
    obtain ⟨k0, r0⟩ := p
    by_cases hk : k = k0
    · exact ⟨r0, by simp [RateMap.get, List.lookup, hk]⟩
    · have hmem : k ∈ RateMap.keys tl := by
        simpa [RateMap.keys, hk] using h
      obtain ⟨r, hr⟩ := ih hmem
      refine ⟨r, ?_⟩
      have hb : (k == k0) = false := by simpa using hk
      simpa [RateMap.get, List.lookup, hb] using hr

/-- A rate read from the map is one of its pairs. -/
theorem RateMap.mem_of_get (m : RateMap) (k : String) (r : ℚ) (h : m.get k = some r) :
    (k, r) ∈ m := by
  induction m with
  | nil => simp [RateMap.get, List.lookup] at h
  | cons p tl ih =>
    obtain ⟨k0, r0⟩ := p
    by_cases hk : k = k0
    · subst hk
      have : r0 = r := by simpa [RateMap.get, List.lookup] using h
      simp [this]
    · have hb : (k == k0) = false := by simpa using hk
      have h2 : RateMap.get tl k = some r := by
        simpa [RateMap.get, List.lookup, hb] using h
      exact List.mem_cons_of_mem _ (ih h2)


/-- C1: on a snapshot whose base is "USD", `convertCurrency` agrees with the
specification's four-case reference definition: same value when the reference
succeeds, failure exactly when the reference fails. -/
theorem convertCurrency_refines_spec (amount : ℚ) (src dst : String) (s : ExchangeRates)
    (hbase : s.Base = "USD") :
    (convertCurrency amount src dst s).toOption = convertSpec amount src dst s := by
  unfold convertCurrency convertSpec
  rw [hbase]
  split_ifs
  · rfl
  · cases s.Rates.get dst <;> rfl
  · cases s.Rates.get src <;> rfl
  · cases s.Rates.get src <;> cases s.Rates.get dst <;> rfl

/-- Witness for `convertCurrency_refines_spec`: 100 EUR to USD at rate 0.92. -/
theorem convertCurrency_refines_spec_witness :
    (defaultRates 0).Base = "USD" ∧
    (convertCurrency 100 "EUR" "USD" (defaultRates 0)).toOption =
      convertSpec 100 "EUR" "USD" (defaultRates 0) :=
  ⟨rfl, convertCurrency_refines_spec 100 "EUR" "USD" (defaultRates 0) rfl⟩

/-- C2, counterexample: on a snapshot with base EUR that quotes GBP at 0.85,
converting 100 from the base to GBP does not return 85; it fails, because the
code pivots on the literal "USD" and looks EUR up among the rates. -/
theorem convertCurrency_pivot_not_base :
    "GBP" ≠ eurSnapshot.Base ∧
    eurSnapshot.Rates.get "GBP" = some 0.85 ∧
    convertCurrency 100 eurSnapshot.Base "GBP" eurSnapshot =
      .error "currency rates not found" ∧
    convertCurrency 100 eurSnapshot.Base "GBP" eurSnapshot ≠ .ok (100 * 0.85) := by
  refine ⟨by decide, ?_, ?_, ?_⟩ <;>
    simp [convertCurrency, eurSnapshot, RateMap.get, List.lookup]

/-- C2, amended: on a snapshot whose base is "USD", converting from the base
to another code multiplies by the stored rate when the code is a key of the
rates, and fails with the target-not-found error when it is not. -/
theorem convertCurrency_from_base (amount : ℚ) (dst : String) (s : ExchangeRates)
    (hbase : s.Base = "USD") (hne : dst ≠ s.Base) :
    convertCurrency amount s.Base dst s =
      match s.Rates.get dst with
      | some rate => .ok (amount * rate)
      | none => .error ("target currency " ++ dst ++ " not found") := by
  rw [hbase] at hne ⊢
  have h : ¬ ("USD" = dst) := fun h => hne h.symm
  simp only [convertCurrency, h, if_false, if_true]

/-- Witness for `convertCurrency_from_base`: USD to JPY on the defaults. -/
theorem convertCurrency_from_base_witness :
    (defaultRates 0).Base = "USD" ∧ "JPY" ≠ (defaultRates 0).Base ∧
    convertCurrency 2 (defaultRates 0).Base "JPY" (defaultRates 0) =
      match (defaultRates 0).Rates.get "JPY" with
      | some rate => .ok (2 * rate)
      | none => .error ("target currency " ++ "JPY" ++ " not found") :=
  ⟨rfl, by decide,
    convertCurrency_from_base 2 "JPY" (defaultRates 0) rfl (by decide)⟩

/-- C4: converting a code to itself succeeds and returns the amount unchanged,
on every snapshot, whether or not the snapshot contains the code. -/
theorem convertCurrency_same (amount : ℚ) (code : String) (s : ExchangeRates) :
    convertCurrency amount code code s = .ok amount := by
  simp [convertCurrency]

/-- C3: round trip.  On a snapshot with base "USD" whose rates are all
strictly positive, for a positive amount and two distinct codes that are each
"USD" or a key of the rates, the conversion succeeds with some result, and
converting that result back succeeds and returns the amount exactly. -/
theorem convertCurrency_round_trip (amount : ℚ) (src dst : String) (s : ExchangeRates)
    (_hbase : s.Base = "USD") (hpos : ∀ p ∈ s.Rates, 0 < p.2) (_hamount : 0 < amount)
    (hne : src ≠ dst) (hsrc : src = "USD" ∨ src ∈ s.Rates.keys)
    (hdst : dst = "USD" ∨ dst ∈ s.Rates.keys) :
    ∃ r, convertCurrency amount src dst s = .ok r ∧
      convertCurrency r dst src s = .ok amount := by
  have hne2 : ¬ dst = src := fun h => hne h.symm
  have rate_ne : ∀ k r, s.Rates.get k = some r → r ≠ 0 := fun k r h =>
    ne_of_gt (hpos (k, r) (RateMap.mem_of_get _ _ _ h))
  by_cases h1 : src = "USD"
  · subst h1
    have hd : ¬ dst = "USD" := hne2
    obtain ⟨rt, hrt⟩ := RateMap.get_of_mem_keys _ _ (hdst.resolve_left hd)
    have hrt0 := rate_ne _ _ hrt
    refine ⟨amount * rt, ?_, ?_⟩
    · simp only [convertCurrency, hne, if_false, if_true, hrt]
    · simp only [convertCurrency, hne2, hd, if_false, if_true, hrt]
      congr 1
      field_simp
  · obtain ⟨rf, hrf⟩ := RateMap.get_of_mem_keys _ _ (hsrc.resolve_left h1)
    have hrf0 := rate_ne _ _ hrf
    by_cases h2 : dst = "USD"
    · subst h2
      refine ⟨amount / rf, ?_, ?_⟩
      · simp only [convertCurrency, hne, h1, if_false, if_true, hrf]
      · simp only [convertCurrency, hne2, if_false, if_true, hrf]
        congr 1
        field_simp
    · obtain ⟨rt, hrt⟩ := RateMap.get_of_mem_keys _ _ (hdst.resolve_left h2)
      have hrt0 := rate_ne _ _ hrt
      refine ⟨amount / rf * rt, ?_, ?_⟩
      · simp only [convertCurrency, hne, h1, h2, if_false, hrf, hrt]
      · simp only [convertCurrency, hne2, h1, h2, if_false, hrf, hrt]
        congr 1
        field_simp
        ring

/-- Witness for `convertCurrency_round_trip`: EUR to JPY and back on the
default snapshot. -/
theorem convertCurrency_round_trip_witness :
    ∃ r, convertCurrency 100 "EUR" "JPY" (defaultRates 0) = .ok r ∧
      convertCurrency r "JPY" "EUR" (defaultRates 0) = .ok 100 :=
  convertCurrency_round_trip 100 "EUR" "JPY" (defaultRates 0) rfl
    (by simp [defaultRates]; norm_num) (by norm_num) (by decide)
    (Or.inr (by simp [defaultRates, RateMap.keys]))
    (Or.inr (by simp [defaultRates, RateMap.keys]))

/-! ## Theorems: rate refresher -/

/-- In the range of `int64`, wrapping changes nothing. -/
theorem wrapInt64_of_inRange (x : Int) (hlo : -2 ^ 63 ≤ x) (hhi : x < 2 ^ 63) :
    wrapInt64 x = x := by
  unfold wrapInt64
  rw [Int.emod_eq_of_lt (by omega) (by omega)]
  omega

/-- Cache policy where the subtraction does not overflow: with a credential
and a stored snapshot `s`, `UpdateRates` answers from the cache without any
fetch or write when the age is below 36000, and attempts a fetch otherwise. -/
theorem UpdateRates_cache_policy_inRange (w : World) (s : ExchangeRates)
    (hkey : w.apiKey ≠ "") (hfile : w.file = .content (.document s))
    (hlo : -2 ^ 63 ≤ w.now - s.Timestamp) (hhi : w.now - s.Timestamp < 2 ^ 63) :
    (w.now - s.Timestamp < 36000 →
      UpdateRates w = (.ok s, { w with trace := w.trace ++ [Event.openFile] })) ∧
    (36000 ≤ w.now - s.Timestamp →
      Event.httpGet ∈ (UpdateRates w).2.trace) := by
  have hsub : int64Sub w.now s.Timestamp = w.now - s.Timestamp :=
    wrapInt64_of_inRange _ hlo hhi
  constructor
  · intro hage
    simp [UpdateRates, hkey, ReadData, hfile, jsonDecode, hsub, hage]
  · intro hage
    have hnot : ¬ (w.now - s.Timestamp < 36000) := not_lt.mpr hage
    cases hr : w.remote with
    | unreachable =>
      simp [UpdateRates, hkey, ReadData, hfile, jsonDecode, hsub, hnot, fetchData, hr]
    | responds b =>
      cases b with
      | malformed =>
        simp [UpdateRates, hkey, ReadData, hfile, jsonDecode, hsub, hnot, fetchData, hr]
      | document n =>
        cases hw : w.writable <;>
          simp [UpdateRates, hkey, ReadData, hfile, jsonDecode, hsub, hnot, fetchData, hr,
            writeDataStruct, hw]

/-- C5, the code at the failing input: `data.json` holds a snapshot with
timestamp `-2^63` and the clock reads 1730000000, so the age is far above
36000 seconds, yet the wrapped `int64` difference is negative and
`UpdateRates` returns the stored snapshot as a cache hit: the only operation
is the opening of the file, no fetch is attempted. -/
theorem UpdateRates_overflow_skips_fetch :
    ancientWorld.apiKey ≠ "" ∧
    ancientWorld.file = .content (.document ancientSnapshot) ∧
    -2 ^ 63 ≤ ancientSnapshot.Timestamp ∧
    36000 ≤ ancientWorld.now - ancientSnapshot.Timestamp ∧
    int64Sub ancientWorld.now ancientSnapshot.Timestamp = -9223372035124775808 ∧
    (UpdateRates ancientWorld).1 = .ok ancientSnapshot ∧
    (UpdateRates ancientWorld).2.trace = [Event.openFile] ∧
    Event.httpGet ∉ (UpdateRates ancientWorld).2.trace := by
  have hsub : int64Sub 1730000000 (-9223372036854775808) = -9223372035124775808 := by
    norm_num [int64Sub, wrapInt64]
  refine ⟨by simp [ancientWorld], rfl, by norm_num [ancientSnapshot],
    by norm_num [ancientWorld, ancientSnapshot], ?_, ?_, ?_, ?_⟩ <;>
    simp [UpdateRates, ReadData, jsonDecode, ancientWorld, ancientSnapshot, hsub]

/-- C6: with a credential, a stored snapshot `s` whose age is at least 36000
seconds and a remote fetch that fails, `UpdateRates` returns `s` with no
error, `data.json` is left as it was, and no creation of the file is
attempted. -/
theorem UpdateRates_network_failure (w : World) (s : ExchangeRates)
    (hkey : w.apiKey ≠ "") (hfile : w.file = .content (.document s))
    (_hstale : 36000 ≤ w.now - s.Timestamp) (hnet : w.remote = .unreachable) :
    (UpdateRates w).1 = .ok s ∧ (UpdateRates w).2.file = w.file ∧
    ∃ evs, (UpdateRates w).2.trace = w.trace ++ evs ∧ Event.createFile ∉ evs := by
  by_cases hfresh : int64Sub w.now s.Timestamp < 36000
  · refine ⟨?_, ?_, [Event.openFile], ?_, by decide⟩ <;>
      simp [UpdateRates, hkey, ReadData, hfile, jsonDecode, hfresh]
  · refine ⟨?_, ?_, [Event.openFile, Event.httpGet], ?_, by decide⟩ <;>
      simp [UpdateRates, hkey, ReadData, hfile, jsonDecode, hfresh, fetchData, hnet]

/-- Witness for `UpdateRates_network_failure`: a snapshot eleven hours old and
no network. -/
theorem UpdateRates_network_failure_witness :
    (UpdateRates offlineWorld).1 = .ok (defaultRates (1730000000 - 11 * 3600)) ∧
    (UpdateRates offlineWorld).2.file = offlineWorld.file ∧
    ∃ evs, (UpdateRates offlineWorld).2.trace = offlineWorld.trace ++ evs ∧
      Event.createFile ∉ evs :=
  UpdateRates_network_failure offlineWorld (defaultRates (1730000000 - 11 * 3600))
    (by decide) rfl (by norm_num [offlineWorld, defaultRates]) rfl

/-- C7: without credential, `UpdateRates` returns the compiled-in default
snapshot with no error and leaves the world untouched: whatever `data.json`
is, it is neither opened nor created, and no request is sent. -/
theorem UpdateRates_no_credential (w : World) (hkey : w.apiKey = "") :
    UpdateRates w = (.ok (defaultRates w.startTime), w) := by
  simp [UpdateRates, hkey]

/-- Witness for `UpdateRates_no_credential`: no credential and a corrupt,
unwritable file. -/
theorem UpdateRates_no_credential_witness :
    noKeyWorld.apiKey = "" ∧
    UpdateRates noKeyWorld = (.ok (defaultRates noKeyWorld.startTime), noKeyWorld) :=
  ⟨rfl, UpdateRates_no_credential noKeyWorld rfl⟩

/-- Reading storage fails exactly when the file cannot be opened, does not
decode, or is missing and cannot be created. -/
theorem ReadData_error_iff (w : World) :
    (∃ e, (ReadData w).1 = .error e) ↔
      (w.file = .unreadable ∨ w.file = .content .malformed ∨
        (w.file = .missing ∧ w.writable = false)) := by
  cases hf : w.file with
  | missing =>
    cases hw : w.writable <;> simp [ReadData, hf, writeDataStruct, hw]
  | unreadable => simp [ReadData, hf]
  | content b =>
    cases b <;> simp [ReadData, hf, jsonDecode]

/-- C8: `UpdateRates` returns an error exactly when a credential is present
and either reading storage fails, or the stored snapshot is stale (the
freshness test of the code fails), the fetch succeeds, and the response does
not decode or the new snapshot cannot be written.  Otherwise it returns a
snapshot.  After a successful fetch, decode and write it returns the decoded
snapshot, and `data.json` then holds that snapshot. -/
theorem UpdateRates_error_iff (w : World) :
    ((∃ e, (UpdateRates w).1 = .error e) ↔
      (w.apiKey ≠ "" ∧
        ((∃ e, (ReadData w).1 = .error e) ∨
          ∃ s, (ReadData w).1 = .ok s ∧ 36000 ≤ int64Sub w.now s.Timestamp ∧
            ∃ b, w.remote = .responds b ∧
              ((∃ e, jsonDecode b = .error e) ∨ w.writable = false)))) ∧
    (w.file = .content .malformed → ∃ e, (ReadData w).1 = .error e) ∧
    ((¬ ∃ e, (UpdateRates w).1 = .error e) → ∃ s, (UpdateRates w).1 = .ok s) ∧
    (∀ s new, w.apiKey ≠ "" → (ReadData w).1 = .ok s →
      36000 ≤ int64Sub w.now s.Timestamp →
      w.remote = .responds (.document new) → w.writable = true →
      (UpdateRates w).1 = .ok new ∧
        (UpdateRates w).2.file = .content (.document new)) := by
  refine ⟨?_, fun hf => (ReadData_error_iff w).mpr (Or.inr (Or.inl hf)), ?_, ?_⟩
  · by_cases hkey : w.apiKey = ""
    · simp [UpdateRates, hkey]
    · cases hf : w.file with
      | missing =>
        cases hw : w.writable with
        | false => simp [UpdateRates, hkey, ReadData, hf, writeDataStruct, hw]
        | true =>
          by_cases hfresh : int64Sub w.now (defaultRates w.startTime).Timestamp < 36000
          · simp [UpdateRates, hkey, ReadData, hf, writeDataStruct, hw, hfresh]
          · cases hr : w.remote with
            | unreachable =>
              simp [UpdateRates, hkey, ReadData, hf, writeDataStruct, hw, hfresh,
                fetchData, hr]
            | responds b =>
              have hst := not_lt.mp hfresh
              cases b <;>
                simp [UpdateRates, hkey, ReadData, hf, writeDataStruct, hw, hfresh,
                  fetchData, hr, jsonDecode, hst]
      | unreadable => simp [UpdateRates, hkey, ReadData, hf]
      | content c =>
        cases c with
        | malformed => simp [UpdateRates, hkey, ReadData, hf, jsonDecode]
        | document s =>
          by_cases hfresh : int64Sub w.now s.Timestamp < 36000
          · simp [UpdateRates, hkey, ReadData, hf, jsonDecode, hfresh]
          · have hst := not_lt.mp hfresh
            cases hr : w.remote with
            | unreachable =>
              simp [UpdateRates, hkey, ReadData, hf, jsonDecode, hfresh, fetchData, hr]
            | responds b =>
              cases b with
              | malformed =>
                simp [UpdateRates, hkey, ReadData, hf, jsonDecode, hfresh, fetchData, hr,
                  hst]
              | document n =>
                cases hw : w.writable <;>
                  simp [UpdateRates, hkey, ReadData, hf, jsonDecode, hfresh, fetchData,
                    hr, writeDataStruct, hw, hst]
  · intro hno
    cases hres : (UpdateRates w).1 with
    | error e => exact absurd ⟨e, hres⟩ hno
    | ok s => exact ⟨s, rfl⟩
  · intro s new hkey hread hstale hnet hw
    have hfresh : ¬ int64Sub w.now s.Timestamp < 36000 := not_lt.mpr hstale
    cases hf : w.file with
    | missing =>
      have hs : s = defaultRates w.startTime := by
        simpa [ReadData, hf, writeDataStruct, hw] using hread.symm
      subst hs
      simp [UpdateRates, hkey, ReadData, hf, writeDataStruct, hw, hfresh, fetchData,
        hnet, jsonDecode]
    | unreadable => simp [ReadData, hf] at hread
    | content c =>
      cases c with
      | malformed => simp [ReadData, hf, jsonDecode] at hread
      | document s0 =>
        have hs : s = s0 := by
          simpa [ReadData, hf, jsonDecode] using hread.symm
        subst hs
        simp [UpdateRates, hkey, ReadData, hf, hfresh, fetchData, hnet, jsonDecode,
          writeDataStruct, hw]

/-! ## Theorems: available currencies -/

/-- On a successful read, the list is the base followed by the rate keys. -/
theorem GetAvailableCurrencies_of_read (w : World) (s : ExchangeRates)
    (hread : (ReadData w).1 = .ok s) :
    (GetAvailableCurrencies w).1 = s.Base :: s.Rates.keys := by
  unfold GetAvailableCurrencies
  rcases hr : ReadData w with ⟨res, w1⟩
  rw [hr] at hread
  cases res with
  | error e => simp at hread
  | ok d =>
    have hd : d = s := by simpa using hread
    simp [hd]

/-- C9, counterexample: `data.json` holds a snapshot with base USD whose rates
have the distinct keys USD and EUR; `ReadData` returns it, and
`GetAvailableCurrencies` lists USD twice. -/
theorem GetAvailableCurrencies_duplicate_base :
    (ReadData usdKeyWorld).1 = .ok usdKeySnapshot ∧
    usdKeySnapshot.Rates.WF ∧
    (GetAvailableCurrencies usdKeyWorld).1 = ["USD", "USD", "EUR"] ∧
    ¬ (GetAvailableCurrencies usdKeyWorld).1.Nodup := by
  have hread : (ReadData usdKeyWorld).1 = .ok usdKeySnapshot := by
    simp [ReadData, usdKeyWorld, jsonDecode]
  have hlist : (GetAvailableCurrencies usdKeyWorld).1 = ["USD", "USD", "EUR"] := by
    rw [GetAvailableCurrencies_of_read _ _ hread]
    simp [usdKeySnapshot, RateMap.keys]
  refine ⟨hread, ?_, hlist, ?_⟩
  · simp [RateMap.WF, RateMap.keys, usdKeySnapshot]
  · rw [hlist]
    simp

/-- C9, amended: for a snapshot that `ReadData` returns, the elements of the
list are exactly the base and the rate keys; a rate key other than the base
occurs once; and when the base is not a rate key, every code occurs once (the
list has no duplicates). -/
theorem GetAvailableCurrencies_codes (w : World) (s : ExchangeRates)
    (hread : (ReadData w).1 = .ok s) (hwf : s.Rates.WF) :
    (∀ c, c ∈ (GetAvailableCurrencies w).1 ↔ c = s.Base ∨ c ∈ s.Rates.keys) ∧
    (∀ c ∈ s.Rates.keys, c ≠ s.Base → (GetAvailableCurrencies w).1.count c = 1) ∧
    (s.Base ∉ s.Rates.keys → (GetAvailableCurrencies w).1.Nodup) := by
  rw [GetAvailableCurrencies_of_read w s hread]
  have hnd : s.Rates.keys.Nodup := hwf
  refine ⟨fun c => List.mem_cons, ?_, ?_⟩
  · intro c hc hne
    rw [List.count_cons_of_ne (fun h => hne h)]
    exact List.count_eq_one_of_mem hnd hc
  · intro hb
    exact List.nodup_cons.mpr ⟨hb, hnd⟩

/-- Witness for `GetAvailableCurrencies_codes`: a stored copy of the default
rates, whose base USD is not among the keys. -/
theorem GetAvailableCurrencies_codes_witness :
    (∀ c, c ∈ (GetAvailableCurrencies offlineWorld).1 ↔
      c = (defaultRates 1729960400).Base ∨ c ∈ (defaultRates 1729960400).Rates.keys) ∧
    (∀ c ∈ (defaultRates 1729960400).Rates.keys, c ≠ (defaultRates 1729960400).Base →
      (GetAvailableCurrencies offlineWorld).1.count c = 1) ∧
    ((defaultRates 1729960400).Base ∉ (defaultRates 1729960400).Rates.keys →
      (GetAvailableCurrencies offlineWorld).1.Nodup) :=
  GetAvailableCurrencies_codes offlineWorld (defaultRates 1729960400)
    (by simp [ReadData, offlineWorld, jsonDecode])
    (by simp [RateMap.WF, RateMap.keys, defaultRates])

/-- C10: when `data.json` is missing, or reading it fails,
`GetAvailableCurrencies` returns the eleven codes of the default snapshot,
each once, in some order. -/
theorem GetAvailableCurrencies_default (w : World)
    (h : w.file = .missing ∨ ∃ e, (ReadData w).1 = .error e) :
    (GetAvailableCurrencies w).1.Perm
      ["USD", "EUR", "GBP", "JPY", "AUD", "CAD", "CHF", "CNY", "INR", "NZD", "BRL"] ∧
    (GetAvailableCurrencies w).1.Nodup := by
  have hlist : (GetAvailableCurrencies w).1 =
      ["USD", "EUR", "GBP", "JPY", "AUD", "CAD", "CHF", "CNY", "INR", "NZD", "BRL"] := by
    cases hf : w.file with
    | missing =>
      cases hw : w.writable <;>
        simp [GetAvailableCurrencies, ReadData, hf, writeDataStruct, hw,
          getDefaultCurrencies, defaultRates, RateMap.keys]
    | unreadable =>
      simp [GetAvailableCurrencies, ReadData, hf, getDefaultCurrencies, defaultRates,
        RateMap.keys]
    | content c =>
      rcases h with h | ⟨e, he⟩
      · rw [hf] at h
        cases h
      · cases c with
        | malformed =>
          simp [GetAvailableCurrencies, ReadData, hf, jsonDecode, getDefaultCurrencies,
            defaultRates, RateMap.keys]
        | document s => simp [ReadData, hf, jsonDecode] at he
  rw [hlist]
  exact ⟨List.Perm.refl _, by simp⟩

/-- Witness for `GetAvailableCurrencies_default`: a first run without
`data.json`. -/
theorem GetAvailableCurrencies_default_witness :
    (GetAvailableCurrencies firstRunWorld).1.Perm
      ["USD", "EUR", "GBP", "JPY", "AUD", "CAD", "CHF", "CNY", "INR", "NZD", "BRL"] ∧
    (GetAvailableCurrencies firstRunWorld).1.Nodup :=
  GetAvailableCurrencies_default firstRunWorld (Or.inl rfl)

/-! ## Theorems: formatting and validation -/

/-- The rendering of a rational whose sign, numerator and denominator are
known. -/
theorem sprintfFixed_of (decimals : Nat) (amount : ℚ) (neg : Bool) (n d : Nat)
    (hneg : decide (amount.num < 0) = neg) (hn : amount.num.natAbs = n)
    (hd : amount.den = d) :
    sprintfFixed decimals amount = fixedPoint neg n d decimals := by
  simp only [sprintfFixed, hneg, hn, hd]

/-- C11, the code at the failing input: the plain rendering of -123.45 with
two decimals is "-123.45", and `formatAmount` turns it into "-,123.45": the
loop counts the minus sign as a character of the integer portion, so a comma
stands between the sign and the first digit. -/
theorem formatAmount_negative_comma_after_sign :
    sprintfFixed 2 (-123.45) = "-123.45".data ∧
    formatAmount (-123.45) "USD" = "-,123.45" := by
  have h : sprintfFixed 2 (-123.45) = "-123.45".data := by
    rw [sprintfFixed_of 2 (-123.45) true 2469 20 (by norm_num) (by norm_num) (by norm_num)]
    decide
  have hc : "USD" ∉ noDecimalCurrencies := by decide
  have hc3 : "USD" ∉ threeDecimalCurrencies := by decide
  refine ⟨h, ?_⟩
  unfold formatAmount
  simp only [hc, hc3, if_false, h]
  decide

/-- Value of `formatAmount(1234567.5, "JPY")`: the half is rounded to the even
neighbour 8. -/
theorem formatAmount_JPY_value : formatAmount 1234567.5 "JPY" = "1,234,568" := by
  have h : sprintfFixed 0 1234567.5 = "1234568".data := by
    rw [sprintfFixed_of 0 1234567.5 false 2469135 2 (by norm_num) (by norm_num) (by norm_num)]
    decide
  have hc : "JPY" ∈ noDecimalCurrencies := by decide
  unfold formatAmount
  simp only [hc, if_true, h]
  decide

/-- C12, counterexample: `formatAmount(1234567.5, "JPY")` is not "1,234,567". -/
theorem formatAmount_JPY_not_truncated : formatAmount 1234567.5 "JPY" ≠ "1,234,567" := by
  rw [formatAmount_JPY_value]
  decide

/-- C12, amended: `formatAmount(1234567.5, "USD")` is "1,234,567.50",
`formatAmount(1234567.5, "JPY")` is "1,234,568", and
`formatAmount(1234.5, "BHD")` is "1,234.500". -/
theorem formatAmount_examples :
    formatAmount 1234567.5 "USD" = "1,234,567.50" ∧
    formatAmount 1234567.5 "JPY" = "1,234,568" ∧
    formatAmount 1234.5 "BHD" = "1,234.500" := by
  refine ⟨?_, formatAmount_JPY_value, ?_⟩
  · have h : sprintfFixed 2 1234567.5 = "1234567.50".data := by
      rw [sprintfFixed_of 2 1234567.5 false 2469135 2 (by norm_num) (by norm_num)
        (by norm_num)]
      decide
    have hc : "USD" ∉ noDecimalCurrencies := by decide
    have hc3 : "USD" ∉ threeDecimalCurrencies := by decide
    unfold formatAmount
    simp only [hc, hc3, if_false, h]
    decide
  · have h : sprintfFixed 3 1234.5 = "1234.500".data := by
      rw [sprintfFixed_of 3 1234.5 false 2469 2 (by norm_num) (by norm_num) (by norm_num)]
      decide
    have hc : "BHD" ∉ noDecimalCurrencies := by decide
    have hc3 : "BHD" ∈ threeDecimalCurrencies := by decide
    unfold formatAmount
    simp only [hc, hc3, if_false, if_true, h]
    decide

/-- What `validateAmount` accepts: the texts that parse to a value for which
`val <= 0` is false. -/
theorem validateAmount_ok_iff (parseFloat : String → Except String F64) (amount : String) :
    validateAmount parseFloat amount = .ok () ↔
      ∃ val, parseFloat amount = .ok val ∧ F64.le val (.finite 0) = false := by
  unfold validateAmount
  cases h : parseFloat amount with
  | error e => simp
  | ok val => cases hle : F64.le val (.finite 0) <;> simp

/-- C13, the code at the failing input: for a parser that, as
`strconv.ParseFloat` does, reads "NaN" as not-a-number without error,
`validateAmount` accepts "NaN", because `val <= 0` is false for it. -/
theorem validateAmount_accepts_NaN (parseFloat : String → Except String F64)
    (hnan : parseFloat "NaN" = .ok F64.nan) :
    validateAmount parseFloat "NaN" = .ok () := by
  simp [validateAmount, hnan, F64.le]

/-- Witness for `validateAmount_accepts_NaN`: the sample parser. -/
theorem validateAmount_accepts_NaN_witness :
    sampleParseFloat "NaN" = .ok F64.nan ∧
    validateAmount sampleParseFloat "NaN" = .ok () :=
  ⟨by simp [sampleParseFloat],
    validateAmount_accepts_NaN sampleParseFloat (by simp [sampleParseFloat])⟩

/-- The verdicts on the other sample texts: "abc", "0" and "-5" are rejected,
"10.5" is accepted. -/
theorem validateAmount_samples :
    validateAmount sampleParseFloat "abc" = .error "please enter a valid number" ∧
    validateAmount sampleParseFloat "0" = .error "amount must be greater than 0" ∧
    validateAmount sampleParseFloat "-5" = .error "amount must be greater than 0" ∧
    validateAmount sampleParseFloat "10.5" = .ok () := by
  refine ⟨?_, ?_, ?_, ?_⟩ <;> simp [validateAmount, sampleParseFloat, F64.le]
  norm_num

/-! ## Theorems: rates without validation, errors, top-level flow -/

/-- C14, counterexample: the snapshot stores -0.5 for EUR and 0 for GBP, and
converting 10 USD to EUR or to GBP does not fail: it returns -5 and 0, the
products with the stored rates. -/
theorem convertCurrency_uses_bad_rates :
    badRateSnapshot.Rates.get "EUR" = some (-0.5) ∧
    convertCurrency 10 "USD" "EUR" badRateSnapshot = .ok (-5) ∧
    badRateSnapshot.Rates.get "GBP" = some 0 ∧
    convertCurrency 10 "USD" "GBP" badRateSnapshot = .ok 0 := by
  refine ⟨?_, ?_, ?_, ?_⟩
  · simp [badRateSnapshot, RateMap.get, List.lookup]
  · simp [convertCurrency, badRateSnapshot, RateMap.get, List.lookup]
    norm_num
  · simp [badRateSnapshot, RateMap.get, List.lookup]
  · simp [convertCurrency, badRateSnapshot, RateMap.get, List.lookup]

/-- C14, amended: a conversion between two different codes fails exactly when
the rate of a side other than "USD" is absent from the snapshot, and returns a
value otherwise, whatever the stored rates are. -/
theorem convertCurrency_fails_iff_rate_absent (amount : ℚ) (src dst : String)
    (s : ExchangeRates) (hne : src ≠ dst) :
    ((∃ e, convertCurrency amount src dst s = .error e) ↔
      ((src ≠ "USD" ∧ s.Rates.get src = none) ∨ (dst ≠ "USD" ∧ s.Rates.get dst = none))) ∧
    ((∃ v, convertCurrency amount src dst s = .ok v) ↔
      ((src = "USD" ∨ ∃ r, s.Rates.get src = some r) ∧
        (dst = "USD" ∨ ∃ r, s.Rates.get dst = some r))) := by
  by_cases h1 : src = "USD"
  · subst h1
    have hd : ¬ dst = "USD" := fun h => hne h.symm
    cases hg : s.Rates.get dst <;> simp [convertCurrency, hne, hd, hg]
  · by_cases h2 : dst = "USD"
    · subst h2
      cases hg : s.Rates.get src <;> simp [convertCurrency, hne, h1, hg]
    · cases hs : s.Rates.get src <;> cases hg : s.Rates.get dst <;>
        simp [convertCurrency, hne, h1, h2, hs, hg]

/-- Witness for `convertCurrency_fails_iff_rate_absent`: USD to EUR on the
snapshot with a negative EUR rate. -/
theorem convertCurrency_fails_iff_rate_absent_witness :
    ((∃ e, convertCurrency 10 "USD" "EUR" badRateSnapshot = .error e) ↔
      (("USD" ≠ "USD" ∧ badRateSnapshot.Rates.get "USD" = none) ∨
        ("EUR" ≠ "USD" ∧ badRateSnapshot.Rates.get "EUR" = none))) ∧
    ((∃ v, convertCurrency 10 "USD" "EUR" badRateSnapshot = .ok v) ↔
      (("USD" = "USD" ∨ ∃ r, badRateSnapshot.Rates.get "USD" = some r) ∧
        ("EUR" = "USD" ∨ ∃ r, badRateSnapshot.Rates.get "EUR" = some r))) :=
  convertCurrency_fails_iff_rate_absent 10 "USD" "EUR" badRateSnapshot (by decide)

/-- C15, the code at the failing input: with a credential and a `data.json`
that does not decode, `UpdateRates` returns an error; `main` logs it as a
warning, goes on to the form, and calls `convertCurrency` with the nil
snapshot, which panics on the nil pointer for 10 EUR to USD. -/
theorem main_continues_after_update_error :
    (UpdateRates corruptWorld).1 = .error "error reading data: invalid character" ∧
    convertCurrencyPtr 10 "EUR" "USD" none = none ∧
    (main eurToUsdUser corruptWorld).1 =
      (["Warning: Error updating rates: error reading data: invalid character"],
        Exit.nilDereference) := by
  have hu : UpdateRates corruptWorld =
      (.error "error reading data: invalid character",
        { corruptWorld with trace := [Event.openFile] }) := by
    simp [UpdateRates, ReadData, jsonDecode, corruptWorld]
  refine ⟨by rw [hu], by simp [convertCurrencyPtr], ?_⟩
  unfold main
  rw [hu]
  simp [GetAvailableCurrencies, ReadData, jsonDecode, corruptWorld, eurToUsdUser,
    convertCurrencyPtr, Except.toOption]

/-- C17, the code at the failing input: on the default snapshot, which has a
rate for EUR and none for SEK, converting EUR to SEK (target absent) and SEK
to EUR (source absent) fail with one and the same message, which names
neither code. -/
theorem convertCurrency_generic_error :
    (defaultRates 0).Rates.get "EUR" = some 0.92 ∧
    (defaultRates 0).Rates.get "SEK" = none ∧
    convertCurrency 10 "EUR" "SEK" (defaultRates 0) = .error "currency rates not found" ∧
    convertCurrency 10 "SEK" "EUR" (defaultRates 0) = .error "currency rates not found" := by
  refine ⟨?_, ?_, ?_, ?_⟩ <;>
    simp [convertCurrency, defaultRates, RateMap.get, List.lookup]

/-- C18, the code at the failing input: `data.json` holds a stale copy of the
default rates and the service answers with a well-formed document without
rate data; `UpdateRates` decodes it to the zero snapshot, writes it over the
stored snapshot and returns it: empty base, no rate. -/
theorem UpdateRates_persists_empty_snapshot :
    refusedKeyWorld.file = .content (.document (defaultRates (1730000000 - 11 * 3600))) ∧
    (UpdateRates refusedKeyWorld).1 = .ok zeroSnapshot ∧
    (UpdateRates refusedKeyWorld).2.file = .content (.document zeroSnapshot) ∧
    zeroSnapshot.Base = "" ∧ zeroSnapshot.Rates = [] := by
  have hsub : int64Sub 1730000000 1729960400 = 39600 := by
    norm_num [int64Sub, wrapInt64]
  refine ⟨rfl, ?_, ?_, rfl, rfl⟩ <;>
    simp [UpdateRates, ReadData, jsonDecode, refusedKeyWorld, defaultRates, hsub, fetchData,
      writeDataStruct]

/-! ## Theorems: offered currencies and the snapshot in use -/

/-- With a credential, a successful `UpdateRates` leaves `data.json` holding
the snapshot it returns. -/
theorem UpdateRates_file_of_key (w : World) (s : ExchangeRates) (hkey : w.apiKey ≠ "")
    (hok : (UpdateRates w).1 = .ok s) :
    (UpdateRates w).2.file = .content (.document s) := by
  cases hf : w.file with
  | missing =>
    cases hw : w.writable with
    | false => simp [UpdateRates, hkey, ReadData, hf, writeDataStruct, hw] at hok
    | true =>
      by_cases hfresh : int64Sub w.now (defaultRates w.startTime).Timestamp < 36000
      · simp [UpdateRates, hkey, ReadData, hf, writeDataStruct, hw, hfresh] at hok ⊢
        exact hok
      · cases hr : w.remote with
        | unreachable =>
          simp [UpdateRates, hkey, ReadData, hf, writeDataStruct, hw, hfresh, fetchData,
            hr] at hok ⊢
          exact hok
        | responds b =>
          cases b with
          | malformed =>
            simp [UpdateRates, hkey, ReadData, hf, writeDataStruct, hw, hfresh, fetchData,
              hr, jsonDecode] at hok
          | document n =>
            simp [UpdateRates, hkey, ReadData, hf, writeDataStruct, hw, hfresh, fetchData,
              hr, jsonDecode] at hok ⊢
            exact hok
  | unreadable => simp [UpdateRates, hkey, ReadData, hf] at hok
  | content c =>
    cases c with
    | malformed => simp [UpdateRates, hkey, ReadData, hf, jsonDecode] at hok
    | document s0 =>
      by_cases hfresh : int64Sub w.now s0.Timestamp < 36000
      · simp [UpdateRates, hkey, ReadData, hf, jsonDecode, hfresh] at hok ⊢
        exact hok
      · cases hr : w.remote with
        | unreachable =>
          simp [UpdateRates, hkey, ReadData, hf, jsonDecode, hfresh, fetchData, hr] at hok ⊢
          exact hok
        | responds b =>
          cases b with
          | malformed =>
            simp [UpdateRates, hkey, ReadData, hf, jsonDecode, hfresh, fetchData, hr] at hok
          | document n =>
            cases hw : w.writable with
            | false =>
              simp [UpdateRates, hkey, ReadData, hf, jsonDecode, hfresh, fetchData, hr,
                writeDataStruct, hw] at hok
            | true =>
              simp [UpdateRates, hkey, ReadData, hf, jsonDecode, hfresh, fetchData, hr,
                writeDataStruct, hw] at hok ⊢
              exact hok

/-- When `data.json` holds a snapshot, the offered codes are its base and its
rate keys. -/
theorem GetAvailableCurrencies_of_file (w : World) (s : ExchangeRates)
    (hf : w.file = .content (.document s)) :
    (GetAvailableCurrencies w).1 = s.Base :: s.Rates.keys := by
  simp [GetAvailableCurrencies, ReadData, hf, jsonDecode]

/-- When `data.json` holds no snapshot, the offered codes are those of the
defaults. -/
theorem GetAvailableCurrencies_of_no_snapshot (w : World)
    (hf : ∀ t, w.file ≠ .content (.document t)) :
    (GetAvailableCurrencies w).1 =
      (defaultRates w.startTime).Base :: (defaultRates w.startTime).Rates.keys := by
  cases hfile : w.file with
  | missing =>
    cases hw : w.writable <;>
      simp [GetAvailableCurrencies, ReadData, hfile, writeDataStruct, hw, getDefaultCurrencies]
  | unreadable => simp [GetAvailableCurrencies, ReadData, hfile, getDefaultCurrencies]
  | content c =>
    cases c with
    | malformed =>
      simp [GetAvailableCurrencies, ReadData, hfile, jsonDecode, getDefaultCurrencies]
    | document t => exact absurd hfile (hf t)

/-- On a snapshot with base "USD", a conversion between two codes that are
each the base or a rate key returns a value. -/
theorem convertCurrency_ok_of_offered (amount : ℚ) (a b : String) (s : ExchangeRates)
    (hbase : s.Base = "USD") (ha : a ∈ s.Base :: s.Rates.keys)
    (hb : b ∈ s.Base :: s.Rates.keys) :
    ∃ v, convertCurrency amount a b s = .ok v := by
  rw [hbase] at ha hb
  by_cases hab : a = b
  · exact ⟨amount, by simp [convertCurrency, hab]⟩
  · by_cases h1 : a = "USD"
    · subst h1
      have hd : ¬ b = "USD" := fun h => hab h.symm
      have hmem : b ∈ s.Rates.keys := (List.mem_cons.mp hb).resolve_left hd
      obtain ⟨r, hr⟩ := RateMap.get_of_mem_keys _ _ hmem
      exact ⟨amount * r, by simp only [convertCurrency, hab, if_false, if_true, hr]⟩
    · have hmema : a ∈ s.Rates.keys := (List.mem_cons.mp ha).resolve_left h1
      obtain ⟨rf, hrf⟩ := RateMap.get_of_mem_keys _ _ hmema
      by_cases h2 : b = "USD"
      · subst h2
        exact ⟨amount / rf, by simp only [convertCurrency, hab, h1, if_false, if_true, hrf]⟩
      · have hmemb : b ∈ s.Rates.keys := (List.mem_cons.mp hb).resolve_left h2
        obtain ⟨rt, hrt⟩ := RateMap.get_of_mem_keys _ _ hmemb
        exact ⟨amount / rf * rt, by simp only [convertCurrency, hab, h1, h2, if_false, hrf, hrt]⟩

/-- C16, counterexample.  Without credential and with `data.json` holding a
snapshot that quotes SEK, `UpdateRates` returns the defaults while SEK is
offered, and converting USD to SEK with the defaults fails.  With a
credential and a fresh stored snapshot whose base is EUR, EUR and GBP are
offered and converting between them with that snapshot fails. -/
theorem offered_currencies_mismatch :
    (UpdateRates noKeyStoredWorld).1 = .ok (defaultRates 1730000000) ∧
    "SEK" ∈ (GetAvailableCurrencies (UpdateRates noKeyStoredWorld).2).1 ∧
    ¬ ("SEK" = (defaultRates 1730000000).Base ∨
      "SEK" ∈ (defaultRates 1730000000).Rates.keys) ∧
    "USD" ∈ (GetAvailableCurrencies (UpdateRates noKeyStoredWorld).2).1 ∧
    convertCurrency 10 "USD" "SEK" (defaultRates 1730000000) =
      .error "target currency SEK not found" ∧
    (UpdateRates eurWorld).1 = .ok eurSnapshot ∧
    "EUR" ∈ (GetAvailableCurrencies (UpdateRates eurWorld).2).1 ∧
    "GBP" ∈ (GetAvailableCurrencies (UpdateRates eurWorld).2).1 ∧
    convertCurrency 10 "EUR" "GBP" eurSnapshot = .error "currency rates not found" := by
  have hu : UpdateRates noKeyStoredWorld = (.ok (defaultRates 1730000000), noKeyStoredWorld) := by
    simp [UpdateRates, noKeyStoredWorld]
  have hl : (GetAvailableCurrencies noKeyStoredWorld).1 = ["USD", "EUR", "SEK"] := by
    rw [GetAvailableCurrencies_of_file noKeyStoredWorld sekSnapshot rfl]
    simp [sekSnapshot, RateMap.keys]
  have hsub : int64Sub 100 0 = 100 := by norm_num [int64Sub, wrapInt64]
  have hue : UpdateRates eurWorld =
      (.ok eurSnapshot, { eurWorld with trace := [Event.openFile] }) := by
    simp [UpdateRates, ReadData, jsonDecode, eurWorld, eurSnapshot, hsub]
  have hle : (GetAvailableCurrencies (UpdateRates eurWorld).2).1 = ["EUR", "USD", "GBP"] := by
    rw [hue, GetAvailableCurrencies_of_file _ eurSnapshot rfl]
    simp [eurSnapshot, RateMap.keys]
  refine ⟨by rw [hu], ?_, ?_, ?_, ?_, by rw [hue], ?_, ?_, ?_⟩
  · rw [hu, hl]; simp
  · simp [defaultRates, RateMap.keys]
  · rw [hu, hl]; simp
  · simp [convertCurrency, defaultRates, RateMap.get, List.lookup]
  · rw [hle]; simp
  · rw [hle]; simp
  · simp [convertCurrency, eurSnapshot, RateMap.get, List.lookup]

/-- C16, amended: when `UpdateRates` succeeds and a credential is present or
`data.json` holds no decodable snapshot, the codes that
`GetAvailableCurrencies` then returns are exactly the base and the rate keys
of the snapshot `UpdateRates` returned; and when that base is "USD",
converting between any two offered codes with that snapshot returns a
value. -/
theorem offered_currencies_match (w : World) (s : ExchangeRates)
    (hok : (UpdateRates w).1 = .ok s)
    (hcase : w.apiKey ≠ "" ∨ ∀ t, w.file ≠ .content (.document t)) :
    (∀ c, c ∈ (GetAvailableCurrencies (UpdateRates w).2).1 ↔
      c = s.Base ∨ c ∈ s.Rates.keys) ∧
    (s.Base = "USD" →
      ∀ a ∈ (GetAvailableCurrencies (UpdateRates w).2).1,
      ∀ b ∈ (GetAvailableCurrencies (UpdateRates w).2).1,
      ∀ amount : ℚ, ∃ v, convertCurrency amount a b s = .ok v) := by
  have hlist : (GetAvailableCurrencies (UpdateRates w).2).1 = s.Base :: s.Rates.keys := by
    by_cases hkey : w.apiKey = ""
    · have hf := hcase.resolve_left (fun h => h hkey)
      have hu : UpdateRates w = (.ok (defaultRates w.startTime), w) := by
        simp [UpdateRates, hkey]
      rw [hu] at hok
      have hs : defaultRates w.startTime = s := by simpa using hok
      rw [hu, GetAvailableCurrencies_of_no_snapshot w hf, hs]
    · exact GetAvailableCurrencies_of_file _ s (UpdateRates_file_of_key w s hkey hok)
  rw [hlist]
  exact ⟨fun c => List.mem_cons,
    fun hbase a ha b hb amount => convertCurrency_ok_of_offered amount a b s hbase ha hb⟩

/-- Witness for `offered_currencies_match`: a credential, a stored snapshot
eleven hours old and no network. -/
theorem offered_currencies_match_witness :
    (∀ c, c ∈ (GetAvailableCurrencies (UpdateRates offlineWorld).2).1 ↔
      c = (defaultRates 1729960400).Base ∨ c ∈ (defaultRates 1729960400).Rates.keys) ∧
    ((defaultRates 1729960400).Base = "USD" →
      ∀ a ∈ (GetAvailableCurrencies (UpdateRates offlineWorld).2).1,
      ∀ b ∈ (GetAvailableCurrencies (UpdateRates offlineWorld).2).1,
      ∀ amount : ℚ, ∃ v, convertCurrency amount a b (defaultRates 1729960400) = .ok v) :=
  offered_currencies_match offlineWorld (defaultRates 1729960400)
    (by
      have hsub : int64Sub 1730000000 1729960400 = 39600 := by
        norm_num [int64Sub, wrapInt64]
      simp [UpdateRates, ReadData, jsonDecode, offlineWorld, defaultRates, hsub, fetchData])
    (Or.inl (by simp [offlineWorld]))

/-! ## Theorems: grouping of non-negative amounts -/

/-- The grouped text is empty exactly when the text is. -/
theorem groupThousands_length_pos (l : List Char) :
    0 < (groupThousands l).length ↔ 0 < l.length := by
  cases l with
  | nil => simp [groupThousands]
  | cons c rest =>
    simp only [groupThousands]
    split_ifs <;> simp

/-- Invariant of the separator loop: with `suf` placed and grouped, placing
the characters of `pre` gives the grouping of the whole text. -/
theorem separatorLoop_eq (pre suf : List Char) :
    separatorLoop pre suf.length (groupThousands suf) = groupThousands (pre.reverse ++ suf) := by
  induction pre generalizing suf with
  | nil => simp [separatorLoop]
  | cons c rest ih =>
    have hstep : (c :: (if (groupThousands suf).length > 0 ∧ suf.length % 3 = 0
        then ',' :: groupThousands suf else groupThousands suf)) = groupThousands (c :: suf) := by
      simp only [groupThousands, gt_iff_lt, groupThousands_length_pos]
      split_ifs <;> rfl
    have := ih (c :: suf)
    simp only [separatorLoop, List.reverse_cons, List.append_assoc, List.singleton_append]
    rw [hstep]
    simpa using this

/-- The separator loop of `formatAmount` computes the reference grouping. -/
theorem separatorLoop_reverse (l : List Char) :
    separatorLoop l.reverse 0 [] = groupThousands l := by
  have := separatorLoop_eq l.reverse []
  simpa [groupThousands] using this

/-- The character of a decimal digit is a digit. -/
theorem digitChar_isDigit (n : Nat) (h : n < 10) : (Nat.digitChar n).isDigit = true := by
  interval_cases n <;> decide

/-- Decimal digits of a number are digits (with accumulator). -/
theorem toDigitsCore_isDigit (fuel n : Nat) (ds : List Char)
    (hds : ∀ c ∈ ds, c.isDigit = true) :
    ∀ c ∈ Nat.toDigitsCore 10 fuel n ds, c.isDigit = true := by
  induction fuel generalizing n ds with
  | zero => simpa [Nat.toDigitsCore] using hds
  | succ fuel ih =>
    have hd : ∀ c ∈ Nat.digitChar (n % 10) :: ds, c.isDigit = true := by
      intro c hc
      rcases List.mem_cons.mp hc with h | h
      · rw [h]; exact digitChar_isDigit _ (Nat.mod_lt _ (by decide))
      · exact hds c h
    simp only [Nat.toDigitsCore]
    split_ifs
    · exact hd
    · exact ih _ _ hd

/-- Decimal digits of a number are digits. -/
theorem toDigits_isDigit (n : Nat) : ∀ c ∈ Nat.toDigits 10 n, c.isDigit = true :=
  toDigitsCore_isDigit _ _ [] (by simp)

/-- A number has at least one decimal digit. -/
theorem toDigits_ne_nil (n : Nat) : Nat.toDigits 10 n ≠ [] := by
  have h := Nat.toDigitsCore_lens_eq 10 n (n / 10) (Nat.digitChar (n % 10)) []
  intro hnil
  simp only [Nat.toDigits, Nat.toDigitsCore] at hnil
  split_ifs at hnil
  rw [hnil] at h
  simp at h

/-- Splitting a text without separator gives the text alone. -/
theorem stringsSplit_no_sep (sep : Char) (l : List Char) (h : sep ∉ l) :
    stringsSplit sep l = [l] := by
  induction l with
  | nil => rfl
  | cons c cs ih =>
    have hc : c ≠ sep := fun e => h (by simp [e])
    have hcs : sep ∉ cs := fun e => h (List.mem_cons_of_mem _ e)
    simp [stringsSplit, hc, ih hcs]

/-- Splitting at the only separator gives the two sides. -/
theorem stringsSplit_one_sep (sep : Char) (l r : List Char) (hl : sep ∉ l) (hr : sep ∉ r) :
    stringsSplit sep (l ++ sep :: r) = [l, r] := by
  induction l with
  | nil => simp [stringsSplit, stringsSplit_no_sep sep r hr]
  | cons c cs ih =>
    have hc : c ≠ sep := fun e => hl (by simp [e])
    have hcs : sep ∉ cs := fun e => hl (List.mem_cons_of_mem _ e)
    simp [stringsSplit, hc, ih hcs]

/-- A character that is no digit does not occur among digits. -/
theorem not_mem_of_isDigit (l : List Char) (h : ∀ c ∈ l, c.isDigit = true) (x : Char)
    (hx : x.isDigit = false) : x ∉ l := by
  intro hmem
  rw [h x hmem] at hx
  exact Bool.noConfusion hx

/-- Shape of an unsigned rendering: a non-empty run of digits, then nothing
(no decimals) or a point and digits. -/
theorem fixedPoint_shape (num den decimals : Nat) :
    ∃ ds tail : List Char,
      fixedPoint false num den decimals = ds ++ tail ∧
      ds ≠ [] ∧ (∀ c ∈ ds, c.isDigit = true) ∧
      (tail = [] ∨ ∃ fd, tail = '.' :: fd ∧ ∀ c ∈ fd, c.isDigit = true) := by
  unfold fixedPoint
  simp only [Bool.false_eq_true, if_false, List.nil_append]
  generalize (if den < 2 * (num * 10 ^ decimals % den) ∨
      2 * (num * 10 ^ decimals % den) = den ∧ num * 10 ^ decimals / den % 2 = 1
    then num * 10 ^ decimals / den + 1 else num * 10 ^ decimals / den) = m
  by_cases hdec : decimals = 0
  · exact ⟨Nat.toDigits 10 (m / 10 ^ decimals), [], by simp [hdec], toDigits_ne_nil _,
      toDigits_isDigit _, Or.inl rfl⟩
  · have hfd : ∀ c ∈ List.replicate (decimals - (Nat.toDigits 10 (m % 10 ^ decimals)).length) '0'
        ++ Nat.toDigits 10 (m % 10 ^ decimals), c.isDigit = true := by
      intro c hc
      rcases List.mem_append.mp hc with hc | hc
      · rw [(List.mem_replicate.mp hc).2]; decide
      · exact toDigits_isDigit _ c hc
    exact ⟨Nat.toDigits 10 (m / 10 ^ decimals), '.' :: (List.replicate
      (decimals - (Nat.toDigits 10 (m % 10 ^ decimals)).length) '0'
        ++ Nat.toDigits 10 (m % 10 ^ decimals)), by simp [hdec], toDigits_ne_nil _,
      toDigits_isDigit _, Or.inr ⟨_, rfl, hfd⟩⟩

/-- For a non-negative amount: the plain rendering is a non-empty run of
digits followed by nothing or by a point and digits, and `formatAmount`
returns the run grouped by threes from the right, followed by the same
tail. -/
theorem formatAmount_of_nonneg (amount : ℚ) (currencyCode : String) (h : 0 ≤ amount) :
    ∃ ds tail : List Char,
      sprintfFixed (if currencyCode ∈ noDecimalCurrencies then 0
        else if currencyCode ∈ threeDecimalCurrencies then 3 else 2) amount = ds ++ tail ∧
      ds ≠ [] ∧ (∀ c ∈ ds, c.isDigit = true) ∧
      (tail = [] ∨ ∃ fd, tail = '.' :: fd ∧ ∀ c ∈ fd, c.isDigit = true) ∧
      (formatAmount amount currencyCode).data = groupThousands ds ++ tail := by
  have hsign : decide (amount.num < 0) = false := by
    have : 0 ≤ amount.num := Rat.num_nonneg.mpr h
    simpa using this
  unfold formatAmount
  generalize (if currencyCode ∈ noDecimalCurrencies then 0
    else if currencyCode ∈ threeDecimalCurrencies then 3 else 2) = decimals
  obtain ⟨ds, tail, hval, hne, hds, htail⟩ :=
    fixedPoint_shape amount.num.natAbs amount.den decimals
  have hplain : sprintfFixed decimals amount = ds ++ tail := by
    simp only [sprintfFixed, hsign, hval]
  have hdot : '.' ∉ ds := not_mem_of_isDigit _ hds '.' (by decide)
  refine ⟨ds, tail, hplain, hne, hds, htail, ?_⟩
  simp only [hplain]
  rcases htail with rfl | ⟨fd, rfl, hfd⟩
  · rw [List.append_nil, stringsSplit_no_sep _ _ hdot]
    simp [separatorLoop_reverse]
  · rw [stringsSplit_one_sep _ _ _ hdot (not_mem_of_isDigit _ hfd '.' (by decide))]
    simp [separatorLoop_reverse]

/-- Removing the commas from the grouped text gives the text back. -/
theorem groupThousands_filter (l : List Char) (h : ',' ∉ l) :
    (groupThousands l).filter (fun c => c != ',') = l := by
  induction l with
  | nil => rfl
  | cons c cs ih =>
    have hc : c ≠ ',' := fun e => h (by simp [e])
    have hcs : ',' ∉ cs := fun e => h (List.mem_cons_of_mem _ e)
    simp only [groupThousands]
    split_ifs <;> simp [hc, ih hcs]

/-- For a non-negative amount, removing the commas from the result of
`formatAmount` gives back the plain rendering. -/
theorem formatAmount_remove_commas (amount : ℚ) (currencyCode : String) (h : 0 ≤ amount) :
    (formatAmount amount currencyCode).data.filter (fun c => c != ',') =
      sprintfFixed (if currencyCode ∈ noDecimalCurrencies then 0
        else if currencyCode ∈ threeDecimalCurrencies then 3 else 2) amount := by
  obtain ⟨ds, tail, hplain, _, hds, htail, hres⟩ := formatAmount_of_nonneg amount currencyCode h
  have hcomma : ',' ∉ ds := not_mem_of_isDigit _ hds ',' (by decide)
  rw [hres, hplain, List.filter_append, groupThousands_filter _ hcomma]
  congr 1
  rcases htail with rfl | ⟨fd, rfl, hfd⟩
  · rfl
  · have hfdc : ',' ∉ fd := not_mem_of_isDigit _ hfd ',' (by decide)
    have hall : ∀ c ∈ '.' :: fd, (fun c => c != ',') c = true := by
      intro c hc
      rcases List.mem_cons.mp hc with hc | hc
      · rw [hc]; decide
      · have : c ≠ ',' := fun e => hfdc (e ▸ hc)
        simpa using this
    exact List.filter_eq_self.mpr hall

end CurrencyConverter
